import Mathlib

/-!
# Verification of `validate_orders.py`

A shallow embedding of the order-validation script: the pydantic `AmazonOrder`
schema (six field constraints with accumulated errors), the row-partitioning
loop, the CSV-output and Slack-notification stages, and the process exit code.

Modelling conventions:
* A raw input row carries `order_id`, `currency`, `ship_country`, `date` as
  strings.  The numeric cells `qty` and `amount` are carried as the result of
  the numeric parse the pipeline performs (`none` when the cell does not parse
  as an integer resp. decimal); `amount` is modelled as a rational.
* `datetime.strptime(value, "%m-%d-%y")` is modelled at the character level:
  the format's regex accepts one-or-two-digit month (1-12) and day (1-31) and
  an exactly-two-digit year, the whole string must be consumed, and the
  subsequent `datetime` construction rejects days that do not exist in the
  parsed month/year (two-digit years map to 1969-2068).
* Network and file effects are represented by data: `run` takes the webhook
  configuration value and an oracle for the outcome of the HTTP POST, and
  returns which files are written, what notification effect happens, and the
  exit code.
-/

namespace ValidateOrders

/-! ## Date parsing: model of `datetime.strptime(value, "%m-%d-%y")` -/

/-- Numeric value of an ASCII digit character, `none` otherwise. -/
def digitVal (c : Char) : Option Nat :=
  if '0' ≤ c ∧ c ≤ '9' then some (c.toNat - '0'.toNat) else none

/-- Accumulating decimal reader over a list of characters. -/
def natOfDigitsAux (acc : Nat) : List Char → Option Nat
  | [] => some acc
  | c :: cs =>
    match digitVal c with
    | some d => natOfDigitsAux (acc * 10 + d) cs
    | none => none

/-- Read a nonempty all-digit character list as a natural number. -/
def natOfDigits : List Char → Option Nat
  | [] => none
  | c :: cs => natOfDigitsAux 0 (c :: cs)

/-- Split a character list at every `'-'` (the separators of `%m-%d-%y`). -/
def splitDash : List Char → List (List Char)
  | [] => [[]]
  | c :: cs =>
    if c = '-' then [] :: splitDash cs
    else
      match splitDash cs with
      | [] => [[c]]
      | p :: ps => (c :: p) :: ps

/-- Gregorian leap-year rule used by `datetime`. -/
def isLeapYear (y : Nat) : Bool :=
  y % 4 == 0 && (y % 100 != 0 || y % 400 == 0)

/-- Number of days `datetime` allows in month `m` of year `y`. -/
def daysInMonth (y m : Nat) : Nat :=
  if m = 2 then (if isLeapYear y then 29 else 28)
  else if m = 4 ∨ m = 6 ∨ m = 9 ∨ m = 11 then 30
  else 31

/-- The `%y` directive maps a two-digit year to 2000-2068 or 1969-1999. -/
def yearOfTwoDigits (y : Nat) : Nat :=
  if y ≤ 68 then 2000 + y else 1900 + y

/-- Model of `datetime.strptime(value, "%m-%d-%y")` succeeding: the regex for
the format accepts `month-day-year` where month is one or two digits valued
1-12, day is one or two digits valued 1-31, year is exactly two digits, with
no unconverted data; constructing the `datetime` additionally requires the day
to exist in the parsed month and year. -/
def check_date_format (s : String) : Bool :=
  match splitDash s.toList with
  | [m, d, y] =>
    match natOfDigits m, natOfDigits d, natOfDigits y with
    | some mv, some dv, some yv =>
      decide (m.length ≤ 2) && decide (1 ≤ mv) && decide (mv ≤ 12) &&
      decide (d.length ≤ 2) && decide (1 ≤ dv) && decide (dv ≤ 31) &&
      decide (y.length = 2) &&
      decide (dv ≤ daysInMonth (yearOfTwoDigits yv) mv)
    | _, _, _ => false
  | _ => false

/-! ## The schema and the per-field validators -/

/-- One raw input row, as handed to `AmazonOrder(**row_dict)`.  The numeric
cells are the outcome of the numeric parse (`none` = not a number). -/
structure RawRow where
  order_id : String
  qty : Option Int
  amount : Option Rat
  currency : String
  ship_country : String
  date : String
deriving DecidableEq, Repr

/-- The normalized record a successful `AmazonOrder(...)` construction
produces. -/
structure AmazonOrder where
  order_id : String
  qty : Int
  amount : Rat
  currency : String
  ship_country : String
  date : String
deriving DecidableEq, Repr

/-- One entry of `e.errors()`: the failing field and its message. -/
structure FieldError where
  field : String
  msg : String
deriving DecidableEq, Repr

/-- Field `order_id: str = Field(min_length=1)`. -/
def orderIdErrors (r : RawRow) : List FieldError :=
  if r.order_id = "" then
    [⟨"order_id", "String should have at least 1 character"⟩]
  else []

/-- Field `qty: int = Field(ge=0)`. -/
def qtyErrors (r : RawRow) : List FieldError :=
  match r.qty with
  | none => [⟨"qty", "Input should be a valid integer"⟩]
  | some n =>
    if n < 0 then [⟨"qty", "Input should be greater than or equal to 0"⟩]
    else []

/-- Field `amount: float = Field(ge=0)`. -/
def amountErrors (r : RawRow) : List FieldError :=
  match r.amount with
  | none => [⟨"amount", "Input should be a valid number"⟩]
  | some a =>
    if a < 0 then [⟨"amount", "Input should be greater than or equal to 0"⟩]
    else []

/-- Validator `check_currency`: raises unless the value is exactly `"INR"`. -/
def currencyErrors (r : RawRow) : List FieldError :=
  if r.currency = "INR" then []
  else [⟨"currency", "Value error, Currency must be INR"⟩]

/-- Validator `check_country`: raises unless the value is exactly `"IN"`. -/
def shipCountryErrors (r : RawRow) : List FieldError :=
  if r.ship_country = "IN" then []
  else [⟨"ship_country", "Value error, Ship country must be IN"⟩]

/-- Validator `check_date_format`: raises unless `strptime` succeeds. -/
def dateErrors (r : RawRow) : List FieldError :=
  if check_date_format r.date then []
  else [⟨"date", "Value error, Date must be in format MM-DD-YY"⟩]

/-- The full error list pydantic accumulates: every field is validated
independently, in field-declaration order, with no short-circuit. -/
def errorsOf (r : RawRow) : List FieldError :=
  orderIdErrors r ++ qtyErrors r ++ amountErrors r ++
    currencyErrors r ++ shipCountryErrors r ++ dateErrors r

/-- Outcome of `AmazonOrder(**row_dict)`: the normalized record, or a
`ValidationError` carrying the accumulated error list. -/
inductive RowOutcome where
  | valid (order : AmazonOrder)
  | invalid (errors : List FieldError)
deriving DecidableEq, Repr

/-- Construction `AmazonOrder(**row_dict)`: succeeds exactly when no field error
accumulates, returning the normalized record. -/
def validateRow (r : RawRow) : RowOutcome :=
  match r.qty, r.amount with
  | some n, some a =>
    if errorsOf r = [] then
      .valid ⟨r.order_id, n, a, r.currency, r.ship_country, r.date⟩
    else .invalid (errorsOf r)
  | _, _ => .invalid (errorsOf r)

/-- Whether the row lands in the `valid_rows` list. -/
def isValidRow (r : RawRow) : Bool :=
  match validateRow r with
  | .valid _ => true
  | .invalid _ => false

/-! ## The partitioning loop -/

/-- An entry of `invalid_rows`: the raw row plus the `validation_errors`
annotation string. -/
structure InvalidRow where
  row : RawRow
  validation_errors : String
deriving DecidableEq, Repr

/-- Annotation `row_dict['validation_errors'] = str(e.error_count()) + " error(s)"`. -/
def annotate (r : RawRow) : InvalidRow :=
  ⟨r, toString (errorsOf r).length ++ " error(s)"⟩

/-- The `for index, row in df.iterrows()` loop: on success the *raw* row dict
is appended to `valid_rows` (the constructed `AmazonOrder` is discarded); on
`ValidationError` the annotated raw row is appended to `invalid_rows`. -/
def partitionRows : List RawRow → List RawRow × List InvalidRow
  | [] => ([], [])
  | r :: rs =>
    let rest := partitionRows rs
    match validateRow r with
    | .valid _ => (r :: rest.1, rest.2)
    | .invalid _ => (rest.1, annotate r :: rest.2)

/-! ## Reporter / notifier / exit code -/

/-- Outcome of the `requests.post` call, as seen by the script. -/
inductive NetResult where
  | response (status : Nat)
  | failure (msg : String)
deriving DecidableEq, Repr

/-- The alert text built by `send_slack_notification`. -/
def slackMessage (invalid_count total_count : Nat) : String :=
  "⚠️ *Amazon Orders Validation Alert*\n\n" ++
  "• Total rows: " ++ toString total_count ++ "\n" ++
  "• Valid rows: " ++ toString (total_count - invalid_count) ++ "\n" ++
  "• Invalid rows: " ++ toString invalid_count ++ "\n\n" ++
  "❌ Please check `invalid_rows.csv` for details."

/-- Observable effect of `send_slack_notification`. -/
inductive SlackEffect where
  | printedMock (text : String)
  | sentOk
  | sendFailedLogged (status : Nat)
  | errorLogged (msg : String)
deriving DecidableEq, Repr

/-- Function `send_slack_notification`: with no webhook configured the message is
printed; otherwise the POST outcome is inspected, a non-200 status or a raised
exception is logged, and the function always returns normally. -/
def send_slack_notification (webhook : String) (net : NetResult)
    (invalid_count total_count : Nat) : SlackEffect :=
  if webhook = "" then .printedMock (slackMessage invalid_count total_count)
  else
    match net with
    | .response status =>
      if status = 200 then .sentOk else .sendFailedLogged status
    | .failure m => .errorLogged m

/-- Observable result of the whole script after a successful CSV load. -/
structure RunResult where
  validFile : Option (List RawRow)
  invalidFile : Option (List InvalidRow)
  notification : Option SlackEffect
  exitCode : Nat
deriving DecidableEq, Repr

/-- The script after `pd.read_csv` succeeds: partition the rows, write each
output file only when its partition is nonempty, notify only when invalid
rows exist, and exit 1 on any invalid row, else 0. -/
def run (webhook : String) (net : NetResult) (rows : List RawRow) :
    RunResult :=
  let p := partitionRows rows
  { validFile := if p.1.length > 0 then some p.1 else none
    invalidFile := if p.2.length > 0 then some p.2 else none
    notification :=
      if p.2.length > 0 then
        some (send_slack_notification webhook net p.2.length rows.length)
      else none
    exitCode := if p.2.length > 0 then 1 else 0 }

/-! ## Concrete rows from the spec's scenarios -/

/-- The all-constraints-pass scenario row `A1`. -/
def rowA1 : RawRow := ⟨"A1", some 2, some 100, "INR", "IN", "01-15-24"⟩

/-- The two-violations scenario row `A2` (negative `qty`, `USD` currency). -/
def rowA2 : RawRow := ⟨"A2", some (-1), some 50, "USD", "IN", "01-15-24"⟩

/-! ## Per-field characterizations -/

lemma orderIdErrors_eq_nil (r : RawRow) :
    orderIdErrors r = [] ↔ r.order_id ≠ "" := by
  unfold orderIdErrors; split <;> simp_all

lemma qtyErrors_eq_nil (r : RawRow) :
    qtyErrors r = [] ↔ ∃ n, r.qty = some n ∧ 0 ≤ n := by
  unfold qtyErrors
  cases h : r.qty with
  | none => simp [h]
  | some n =>
    simp only [h]
    by_cases hn : n < 0
    · rw [if_pos hn]
      constructor
      · intro hc; simp at hc
      · rintro ⟨n', hn', hge⟩
        injection hn' with he
        exact absurd hge (by omega)
    · rw [if_neg hn]
      constructor
      · intro _; exact ⟨n, rfl, by omega⟩
      · intro _; rfl

lemma amountErrors_eq_nil (r : RawRow) :
    amountErrors r = [] ↔ ∃ a, r.amount = some a ∧ 0 ≤ a := by
  unfold amountErrors
  cases h : r.amount with
  | none => simp [h]
  | some a =>
    simp only [h]
    by_cases ha : a < 0
    · rw [if_pos ha]
      constructor
      · intro hc; simp at hc
      · rintro ⟨a', ha', hge⟩
        injection ha' with he
        subst he
        exact absurd hge (not_le.mpr ha)
    · rw [if_neg ha]
      constructor
      · intro _; exact ⟨a, rfl, not_lt.mp ha⟩
      · intro _; rfl

lemma currencyErrors_eq_nil (r : RawRow) :
    currencyErrors r = [] ↔ r.currency = "INR" := by
  unfold currencyErrors; split <;> simp_all

lemma shipCountryErrors_eq_nil (r : RawRow) :
    shipCountryErrors r = [] ↔ r.ship_country = "IN" := by
  unfold shipCountryErrors; split <;> simp_all

lemma dateErrors_eq_nil (r : RawRow) :
    dateErrors r = [] ↔ check_date_format r.date = true := by
  unfold dateErrors; split <;> simp_all

/-- No field error accumulates exactly when all six constraints hold. -/
lemma errorsOf_eq_nil (r : RawRow) :
    errorsOf r = [] ↔
      (r.order_id ≠ "" ∧ (∃ n, r.qty = some n ∧ 0 ≤ n) ∧
       (∃ a, r.amount = some a ∧ 0 ≤ a) ∧ r.currency = "INR" ∧
       r.ship_country = "IN" ∧ check_date_format r.date = true) := by
  unfold errorsOf
  rw [List.append_eq_nil, List.append_eq_nil, List.append_eq_nil,
    List.append_eq_nil, List.append_eq_nil]
  rw [orderIdErrors_eq_nil, qtyErrors_eq_nil, amountErrors_eq_nil,
    currencyErrors_eq_nil, shipCountryErrors_eq_nil, dateErrors_eq_nil]
  tauto

/-- On any failing row, `AmazonOrder(**row_dict)` raises with the full
accumulated error list. -/
lemma validateRow_invalid (r : RawRow) (he : errorsOf r ≠ []) :
    validateRow r = .invalid (errorsOf r) := by
  unfold validateRow
  cases hq : r.qty <;> cases ha : r.amount <;> simp [hq, ha, he]

/-- On an error-free row, `AmazonOrder(**row_dict)` returns the normalized
record built from the row's fields. -/
lemma validateRow_valid (r : RawRow) (he : errorsOf r = []) :
    ∃ n a, r.qty = some n ∧ r.amount = some a ∧
      validateRow r =
        .valid ⟨r.order_id, n, a, r.currency, r.ship_country, r.date⟩ := by
  have he' := he
  rw [errorsOf_eq_nil] at he'
  obtain ⟨-, ⟨n, hn, -⟩, ⟨a, ha, -⟩, -⟩ := he'
  refine ⟨n, a, hn, ha, ?_⟩
  unfold validateRow
  simp only [hn, ha]
  rw [if_pos he]

/-- Construction `AmazonOrder(**row_dict)` succeeds exactly when no error accumulates. -/
lemma isValidRow_iff (r : RawRow) :
    isValidRow r = true ↔ errorsOf r = [] := by
  constructor
  · intro h
    by_contra he
    unfold isValidRow at h
    rw [validateRow_invalid r he] at h
    simp at h
  · intro he
    obtain ⟨n, a, -, -, hv⟩ := validateRow_valid r he
    unfold isValidRow
    rw [hv]

/-- The loop appends each row to exactly one list, preserving input order:
`valid_rows` is the sublist of rows that validate, `invalid_rows` the
annotated sublist of those that do not. -/
lemma partitionRows_eq (rows : List RawRow) :
    partitionRows rows =
      (rows.filter (fun r => isValidRow r),
       (rows.filter (fun r => !isValidRow r)).map annotate) := by
  induction rows with
  | nil => rfl
  | cons r rs ih =>
    unfold partitionRows
    rw [ih]
    cases h : validateRow r with
    | valid o =>
      have hv : isValidRow r = true := by unfold isValidRow; rw [h]
      simp [hv]
    | invalid es =>
      have hv : isValidRow r = false := by unfold isValidRow; rw [h]
      simp [hv]

/-- A filter is inhabited exactly when some element satisfies the
predicate. -/
lemma filter_length_pos_iff {α : Type} (p : α → Bool) (l : List α) :
    0 < (l.filter p).length ↔ ∃ r ∈ l, p r = true := by
  rw [List.length_pos]
  constructor
  · intro h
    obtain ⟨r, hr⟩ := List.exists_mem_of_ne_nil _ h
    rw [List.mem_filter] at hr
    exact ⟨r, hr.1, hr.2⟩
  · rintro ⟨r, hm, hp⟩
    exact List.ne_nil_of_mem (List.mem_filter.mpr ⟨hm, hp⟩)

/-- The invalid partition is inhabited exactly when some row fails. -/
lemma invalid_length_pos_iff (rows : List RawRow) :
    0 < (partitionRows rows).2.length ↔
      ∃ r ∈ rows, isValidRow r = false := by
  rw [partitionRows_eq]
  simp only [List.length_map]
  rw [filter_length_pos_iff]
  simp [Bool.not_eq_true']

/-! ## The claims -/

/-- C1: a raw row is classified Valid iff all six field constraints hold
simultaneously: non-empty `order_id`, `qty` parses as an integer ≥ 0,
`amount` parses as a non-negative decimal, `currency` is exactly `"INR"`,
`ship_country` is exactly `"IN"`, and `date` passes the `%m-%d-%y` check;
there is no partial validity. -/
theorem valid_iff_all_six_constraints (r : RawRow) :
    (∃ o, validateRow r = RowOutcome.valid o) ↔
      (r.order_id ≠ "" ∧ (∃ n, r.qty = some n ∧ 0 ≤ n) ∧
       (∃ a, r.amount = some a ∧ 0 ≤ a) ∧ r.currency = "INR" ∧
       r.ship_country = "IN" ∧ check_date_format r.date = true) := by
  rw [← errorsOf_eq_nil]
  constructor
  · rintro ⟨o, ho⟩
    by_contra he
    rw [validateRow_invalid r he] at ho
    cases ho
  · intro he
    obtain ⟨n, a, -, -, hv⟩ := validateRow_valid r he
    exact ⟨_, hv⟩

/-- C3: every row lands in exactly one partition, so the valid and invalid
counts always sum to the total row count. -/
theorem partition_counts (rows : List RawRow) :
    (partitionRows rows).1.length + (partitionRows rows).2.length
      = rows.length := by
  rw [partitionRows_eq]
  simp only [List.length_map]
  exact (List.length_eq_length_filter_add (fun r => isValidRow r)).symm

/-- C4: the partition is stable — both the valid partition and (the raw rows
of) the invalid partition are sublists of the input, hence keep the input's
relative order; nothing is sorted or reordered. -/
theorem partition_stable (rows : List RawRow) :
    (partitionRows rows).1.Sublist rows ∧
      ((partitionRows rows).2.map InvalidRow.row).Sublist rows := by
  rw [partitionRows_eq]
  constructor
  · exact List.filter_sublist rows
  · have hmap : ((rows.filter (fun r => !isValidRow r)).map annotate).map
        InvalidRow.row = rows.filter (fun r => !isValidRow r) := by
      rw [List.map_map]
      have hcomp : InvalidRow.row ∘ annotate = id := funext fun r => rfl
      rw [hcomp, List.map_id]
    rw [hmap]
    exact List.filter_sublist rows

/-- The script's observable result, with each `if` condition in `0 < _`
normal form. -/
lemma run_eq (webhook : String) (net : NetResult) (rows : List RawRow) :
    run webhook net rows =
      { validFile :=
          if 0 < (partitionRows rows).1.length then
            some (partitionRows rows).1
          else none
        invalidFile :=
          if 0 < (partitionRows rows).2.length then
            some (partitionRows rows).2
          else none
        notification :=
          if 0 < (partitionRows rows).2.length then
            some (send_slack_notification webhook net
              (partitionRows rows).2.length rows.length)
          else none
        exitCode := if 0 < (partitionRows rows).2.length then 1 else 0 } :=
  rfl

/-- C5: after a successful load the exit code is 1 iff some row is invalid,
0 iff every row is valid (in particular 0 for the empty table), and never
anything else. -/
theorem exit_code_spec (webhook : String) (net : NetResult)
    (rows : List RawRow) :
    ((run webhook net rows).exitCode = 1 ↔
        ∃ r ∈ rows, isValidRow r = false) ∧
      ((run webhook net rows).exitCode = 0 ↔
        ∀ r ∈ rows, isValidRow r = true) ∧
      ((run webhook net rows).exitCode = 0 ∨
        (run webhook net rows).exitCode = 1) := by
  rw [run_eq]
  simp only []
  by_cases h : 0 < (partitionRows rows).2.length
  · rw [if_pos h]
    have hex := (invalid_length_pos_iff rows).mp h
    refine ⟨⟨fun _ => hex, fun _ => rfl⟩, ?_, Or.inr rfl⟩
    constructor
    · intro h10; exact absurd h10 one_ne_zero
    · intro hall
      obtain ⟨r, hm, hr⟩ := hex
      rw [hall r hm] at hr
      cases hr
  · rw [if_neg h]
    have hnone : ∀ r ∈ rows, isValidRow r = true := by
      intro r hm
      cases hv : isValidRow r with
      | true => rfl
      | false => exact absurd ((invalid_length_pos_iff rows).mpr ⟨r, hm, hv⟩) h
    refine ⟨?_, ⟨fun _ => hnone, fun _ => rfl⟩, Or.inl rfl⟩
    constructor
    · intro h01; exact absurd h01.symm one_ne_zero
    · rintro ⟨r, hm, hr⟩
      rw [hnone r hm] at hr
      cases hr

/-- C6: an output file is written iff its partition is nonempty, and an
empty input table writes no file, sends no notification, and exits 0. -/
theorem output_skipping (webhook : String) (net : NetResult)
    (rows : List RawRow) :
    ((run webhook net rows).validFile ≠ none ↔
        ∃ r ∈ rows, isValidRow r = true) ∧
      ((run webhook net rows).invalidFile ≠ none ↔
        ∃ r ∈ rows, isValidRow r = false) ∧
      run webhook net [] =
        { validFile := none, invalidFile := none,
          notification := none, exitCode := 0 } := by
  have hval : 0 < (partitionRows rows).1.length ↔
      ∃ r ∈ rows, isValidRow r = true := by
    rw [partitionRows_eq]
    simpa using filter_length_pos_iff (fun r => isValidRow r) rows
  refine ⟨?_, ?_, rfl⟩
  · rw [run_eq]
    simp only []
    by_cases h : 0 < (partitionRows rows).1.length
    · rw [if_pos h]
      simpa using hval.mp h
    · rw [if_neg h]
      simpa using fun r hm hr => h (hval.mpr ⟨r, hm, hr⟩)
  · rw [run_eq]
    simp only []
    by_cases h : 0 < (partitionRows rows).2.length
    · rw [if_pos h]
      simpa using (invalid_length_pos_iff rows).mp h
    · rw [if_neg h]
      simpa using fun r hm hr => h ((invalid_length_pos_iff rows).mpr ⟨r, hm, hr⟩)

/-- The spec's view of a row's violated constraints: the field names whose
constraint fails, in field-declaration order. -/
def fieldViolations (r : RawRow) : List String :=
  (if r.order_id = "" then ["order_id"] else []) ++
  (match r.qty with
   | none => ["qty"]
   | some n => if n < 0 then ["qty"] else []) ++
  (match r.amount with
   | none => ["amount"]
   | some a => if a < 0 then ["amount"] else []) ++
  (if r.currency = "INR" then [] else ["currency"]) ++
  (if r.ship_country = "IN" then [] else ["ship_country"]) ++
  (if check_date_format r.date then [] else ["date"])

/-- C2: validation never short-circuits — the reported error list names
exactly the violated fields (one error per violated field, so the error
count equals the number of violated fields), and the scenario row `A2`
(negative `qty`, `USD` currency) is Invalid with exactly the `qty` and
`currency` errors and annotation `"2 error(s)"`. -/
theorem no_short_circuit (r : RawRow) :
    (errorsOf r).map FieldError.field = fieldViolations r ∧
      (errorsOf r).length = (fieldViolations r).length ∧
      validateRow rowA2 = RowOutcome.invalid
        [⟨"qty", "Input should be greater than or equal to 0"⟩,
         ⟨"currency", "Value error, Currency must be INR"⟩] ∧
      (annotate rowA2).validation_errors = "2 error(s)" := by
  have hmap : (errorsOf r).map FieldError.field = fieldViolations r := by
    unfold errorsOf fieldViolations orderIdErrors qtyErrors amountErrors
      currencyErrors shipCountryErrors dateErrors
    cases r.qty <;> cases r.amount <;> split_ifs <;> simp <;>
      split_ifs <;> simp
  refine ⟨hmap, ?_, by decide, by decide⟩
  rw [← hmap, List.length_map]

/-- C9: the run is deterministic — equal inputs under the same configuration
yield equal results — and classification is per-row: partitioning distributes
over list concatenation, so no state is shared across rows. -/
theorem run_deterministic (webhook : String) (net : NetResult)
    (rows₁ rows₂ xs ys : List RawRow) (h : rows₁ = rows₂) :
    run webhook net rows₁ = run webhook net rows₂ ∧
      partitionRows (xs ++ ys) =
        ((partitionRows xs).1 ++ (partitionRows ys).1,
         (partitionRows xs).2 ++ (partitionRows ys).2) := by
  subst h
  refine ⟨rfl, ?_⟩
  rw [partitionRows_eq, partitionRows_eq, partitionRows_eq]
  simp [List.filter_append]

/-- Witness for C9 at concrete inputs. -/
theorem run_deterministic_witness :
    run "" (NetResult.response 200) [rowA1] =
        run "" (NetResult.response 200) [rowA1] ∧
      partitionRows ([rowA1] ++ [rowA2]) =
        ((partitionRows [rowA1]).1 ++ (partitionRows [rowA2]).1,
         (partitionRows [rowA1]).2 ++ (partitionRows [rowA2]).2) :=
  run_deterministic "" (NetResult.response 200) [rowA1] [rowA1]
    [rowA1] [rowA2] rfl

/-- C10: the valid partition contains the original raw rows themselves,
field for field (the normalized `AmazonOrder` is discarded): it equals the
input filtered to its validating rows, and that is what the valid-records
file receives. -/
theorem valid_partition_preserves_rows (webhook : String) (net : NetResult)
    (rows : List RawRow) :
    (partitionRows rows).1 = rows.filter (fun r => isValidRow r) ∧
      (run webhook net rows).validFile =
        (if 0 < (rows.filter (fun r => isValidRow r)).length then
          some (rows.filter (fun r => isValidRow r))
        else none) := by
  have h1 : (partitionRows rows).1 = rows.filter (fun r => isValidRow r) := by
    rw [partitionRows_eq]
  refine ⟨h1, ?_⟩
  rw [run_eq]
  simp only [h1]

/-- String concatenation is associative (via the underlying data lists). -/
lemma strAppend_assoc (a b c : String) : a ++ b ++ c = a ++ (b ++ c) := by
  apply String.ext
  simp [String.data_append]

/-- C8: an alert is constructed exactly when invalid rows exist; the alert
text carries the total, valid, and invalid counts and the
`invalid_rows.csv` pointer; with no webhook configured the message is
printed rather than dropped; a raised network error or a non-200 response is
caught and logged; and the exit code does not depend on the network
outcome. -/
theorem notification_spec (webhook : String) (net net' : NetResult)
    (rows : List RawRow) (inv tot status : Nat) (m : String) :
    ((run webhook net rows).notification ≠ none ↔
        ∃ r ∈ rows, isValidRow r = false) ∧
      (∃ t u, slackMessage inv tot = t ++ toString tot ++ u) ∧
      (∃ t u, slackMessage inv tot = t ++ toString (tot - inv) ++ u) ∧
      (∃ t u, slackMessage inv tot = t ++ toString inv ++ u) ∧
      (∃ t u, slackMessage inv tot = t ++ "invalid_rows.csv" ++ u) ∧
      send_slack_notification "" net inv tot =
        SlackEffect.printedMock (slackMessage inv tot) ∧
      send_slack_notification webhook (NetResult.failure m) inv tot =
        (if webhook = "" then
          SlackEffect.printedMock (slackMessage inv tot)
        else SlackEffect.errorLogged m) ∧
      send_slack_notification webhook (NetResult.response status) inv tot =
        (if webhook = "" then
          SlackEffect.printedMock (slackMessage inv tot)
        else if status = 200 then SlackEffect.sentOk
        else SlackEffect.sendFailedLogged status) ∧
      (run webhook net rows).exitCode = (run webhook net' rows).exitCode := by
  refine ⟨?_, ?_, ?_, ?_, ?_, rfl, rfl, rfl, rfl⟩
  · rw [run_eq]
    simp only []
    by_cases h : 0 < (partitionRows rows).2.length
    · rw [if_pos h]
      simpa using (invalid_length_pos_iff rows).mp h
    · rw [if_neg h]
      simpa using fun r hm hr =>
        h ((invalid_length_pos_iff rows).mpr ⟨r, hm, hr⟩)
  · exact ⟨"⚠️ *Amazon Orders Validation Alert*\n\n" ++ "• Total rows: ",
      "\n" ++ "• Valid rows: " ++ toString (tot - inv) ++ "\n" ++
        "• Invalid rows: " ++ toString inv ++ "\n\n" ++
        "❌ Please check `invalid_rows.csv` for details.",
      by simp [slackMessage, strAppend_assoc]⟩
  · exact ⟨"⚠️ *Amazon Orders Validation Alert*\n\n" ++ "• Total rows: " ++
        toString tot ++ "\n" ++ "• Valid rows: ",
      "\n" ++ "• Invalid rows: " ++ toString inv ++ "\n\n" ++
        "❌ Please check `invalid_rows.csv` for details.",
      by simp [slackMessage, strAppend_assoc]⟩
  · exact ⟨"⚠️ *Amazon Orders Validation Alert*\n\n" ++ "• Total rows: " ++
        toString tot ++ "\n" ++ "• Valid rows: " ++ toString (tot - inv) ++
        "\n" ++ "• Invalid rows: ",
      "\n\n" ++ "❌ Please check `invalid_rows.csv` for details.",
      by simp [slackMessage, strAppend_assoc]⟩
  · refine ⟨"⚠️ *Amazon Orders Validation Alert*\n\n" ++ "• Total rows: " ++
        toString tot ++ "\n" ++ "• Valid rows: " ++ toString (tot - inv) ++
        "\n" ++ "• Invalid rows: " ++ toString inv ++ "\n\n" ++
        "❌ Please check `",
      "` for details.", ?_⟩
    have hsplit : "❌ Please check `invalid_rows.csv` for details." =
        "❌ Please check `" ++ ("invalid_rows.csv" ++ "` for details.") := by
      decide
    rw [slackMessage, hsplit]
    simp [strAppend_assoc]

/-! ## Date-format analysis (C7) -/

/-- Reassemble the pieces produced by `splitDash`. -/
def joinDash : List (List Char) → List Char
  | [] => []
  | [p] => p
  | p :: ps => p ++ '-' :: joinDash ps

lemma splitDash_ne_nil (l : List Char) : splitDash l ≠ [] := by
  cases l with
  | nil => simp [splitDash]
  | cons c cs =>
    unfold splitDash
    by_cases h : c = '-'
    · rw [if_pos h]; simp
    · rw [if_neg h]
      cases hs : splitDash cs with
      | nil => simp
      | cons p ps => simp

lemma joinDash_splitDash (l : List Char) : joinDash (splitDash l) = l := by
  induction l with
  | nil => rfl
  | cons c cs ih =>
    unfold splitDash
    by_cases h : c = '-'
    · rw [if_pos h, h]
      cases hs : splitDash cs with
      | nil => exact absurd hs (splitDash_ne_nil cs)
      | cons p ps =>
        rw [hs] at ih
        show [] ++ '-' :: joinDash (p :: ps) = '-' :: cs
        rw [List.nil_append, ih]
    · rw [if_neg h]
      cases hs : splitDash cs with
      | nil => exact absurd hs (splitDash_ne_nil cs)
      | cons p ps =>
        rw [hs] at ih
        cases ps with
        | nil =>
          show c :: p = c :: cs
          exact congrArg (List.cons c) ih
        | cons q qs =>
          show (c :: p) ++ '-' :: joinDash (q :: qs) = c :: cs
          rw [List.cons_append]
          exact congrArg (List.cons c) ih

lemma splitDash_no_dash {l : List Char} (h : '-' ∉ l) : splitDash l = [l] := by
  induction l with
  | nil => rfl
  | cons c cs ih =>
    have hc : c ≠ '-' := fun he => h (by rw [← he]; exact List.mem_cons_self c cs)
    have hcs : '-' ∉ cs := fun hm => h (List.mem_cons_of_mem c hm)
    unfold splitDash
    rw [if_neg hc, ih hcs]

lemma splitDash_append {l₁ : List Char} (l₂ : List Char) (h : '-' ∉ l₁) :
    splitDash (l₁ ++ '-' :: l₂) = l₁ :: splitDash l₂ := by
  induction l₁ with
  | nil =>
    show splitDash ('-' :: l₂) = [] :: splitDash l₂
    rw [splitDash, if_pos rfl]
  | cons c cs ih =>
    have hc : c ≠ '-' := fun he => h (by rw [← he]; exact List.mem_cons_self c cs)
    have hcs : '-' ∉ cs := fun hm => h (List.mem_cons_of_mem c hm)
    show splitDash (c :: (cs ++ '-' :: l₂)) = (c :: cs) :: splitDash l₂
    rw [splitDash, if_neg hc, ih hcs]

lemma natOfDigitsAux_no_dash (l : List Char) :
    ∀ acc v : Nat, natOfDigitsAux acc l = some v → '-' ∉ l := by
  induction l with
  | nil => intro acc v _; simp
  | cons c cs ih =>
    intro acc v h hmem
    unfold natOfDigitsAux at h
    cases hd : digitVal c with
    | none => rw [hd] at h; cases h
    | some d =>
      rw [hd] at h
      rcases List.mem_cons.mp hmem with he | hmem'
      · have hnone : digitVal '-' = none := by decide
        rw [← he, hnone] at hd
        cases hd
      · exact ih (acc * 10 + d) v h hmem'

lemma natOfDigits_no_dash {l : List Char} {v : Nat}
    (h : natOfDigits l = some v) : '-' ∉ l := by
  cases l with
  | nil => simp
  | cons c cs => exact natOfDigitsAux_no_dash (c :: cs) 0 v h

lemma daysInMonth_le_31 (y m : Nat) : daysInMonth y m ≤ 31 := by
  unfold daysInMonth
  split_ifs <;> omega

/-- The claim's reading of the date rule: strictly two-digit month, day,
and year components, denoting a real calendar date. -/
def specTwoDigitDate (s : String) : Bool :=
  match splitDash s.toList with
  | [m, d, y] =>
    match natOfDigits m, natOfDigits d, natOfDigits y with
    | some mv, some dv, some yv =>
      decide (m.length = 2) && decide (1 ≤ mv) && decide (mv ≤ 12) &&
      decide (d.length = 2) && decide (1 ≤ dv) &&
      decide (y.length = 2) &&
      decide (dv ≤ daysInMonth (yearOfTwoDigits yv) mv)
    | _, _, _ => false
  | _ => false

/-- C7 counterexample: `"1-15-24"` has a one-digit month, so it does not
match the claim's strict two-digit MM-DD-YY pattern, yet the code's
`strptime`-based check accepts it. -/
theorem date_format_counterexample :
    check_date_format "1-15-24" = true ∧
      specTwoDigitDate "1-15-24" = false := by
  exact ⟨by decide, by decide⟩

/-- C7 amended: the date passes validation iff it is
`month ++ "-" ++ day ++ "-" ++ year` where month and day are *one or two*
digit numerals (1-12 resp. at least 1) and the year numeral has exactly two
digits, and the day exists in the month of the denoted calendar year
(two-digit years map to 1969-2068). -/
theorem date_format_amended (s : String) :
    check_date_format s = true ↔
      ∃ m d y mv dv yv,
        s.toList = m ++ '-' :: (d ++ '-' :: y) ∧
        natOfDigits m = some mv ∧ natOfDigits d = some dv ∧
        natOfDigits y = some yv ∧
        m.length ≤ 2 ∧ d.length ≤ 2 ∧ y.length = 2 ∧
        1 ≤ mv ∧ mv ≤ 12 ∧ 1 ≤ dv ∧
        dv ≤ daysInMonth (yearOfTwoDigits yv) mv := by
  constructor
  · intro h
    unfold check_date_format at h
    split at h
    case _ m d y hs =>
      split at h
      case _ mv dv yv hm hd hy =>
        simp only [Bool.and_eq_true, decide_eq_true_eq] at h
        obtain ⟨⟨⟨⟨⟨⟨⟨hlm, h1⟩, h2⟩, hld⟩, h3⟩, -⟩, hly⟩, h5⟩ := h
        refine ⟨m, d, y, mv, dv, yv, ?_, hm, hd, hy, hlm, hld, hly,
          h1, h2, h3, h5⟩
        have hj := joinDash_splitDash s.toList
        rw [hs] at hj
        exact hj.symm
      case _ => cases h
    case _ => cases h
  · rintro ⟨m, d, y, mv, dv, yv, hs, hm, hd, hy, hlm, hld, hly,
      h1, h2, h3, h5⟩
    have hsplit : splitDash s.toList = [m, d, y] := by
      rw [hs, splitDash_append _ (natOfDigits_no_dash hm),
        splitDash_append _ (natOfDigits_no_dash hd),
        splitDash_no_dash (natOfDigits_no_dash hy)]
    unfold check_date_format
    rw [hsplit]
    have h31 : dv ≤ 31 := Nat.le_trans h5 (daysInMonth_le_31 _ _)
    simp [hm, hd, hy, hlm, hld, hly, h1, h2, h3, h5, h31]

end ValidateOrders
